import Mathlib

set_option maxRecDepth 16384

/-!
Verification of the `mem_viewer` crate (src/src/lib.rs) against its
natural-language specification.

The crate has two display pipelines:
  * the direct pipeline: macro `view_mem!` plus the function
    `_show_memory_content`, which walks live memory byte by byte;
  * the isolation pipeline: macro `safe_view_mem!`, which serializes the
    value into a `Vec<u8>` container, optionally strips an 8-byte header,
    and walks the container.

Bytes are modelled as `Nat` (with `< 256` bounds where relevant), memory as
a function `Nat → Nat` from addresses to byte values, and the printed
output as a list of structured lines.
-/

namespace MemViewer

/-! ## Number formatting (Rust `format!("{:02x}")`, `{:03}`, `{:08b}`) -/

/-- Digits of `n` in base `base`, most significant first, as Rust's
integer `Display`/`LowerHex`/`Binary` formatting produces them.  The first
argument is fuel; `natDigits` below supplies `n` itself as fuel, which is
always enough since the value shrinks by a factor of `base ≥ 2` each step. -/
def natDigitsFuel (base : Nat) : Nat → Nat → List Nat
  | 0, n => [n]
  | fuel + 1, n =>
    if n < base then [n]
    else natDigitsFuel base fuel (n / base) ++ [n % base]

/-- Digits of `n` in base `base`, most significant first. -/
def natDigits (base n : Nat) : List Nat := natDigitsFuel base n n

/-- Left-pad a digit list with zeros to width `w`
(the `0`-flag of Rust's width specifier). -/
def padZeros (w : Nat) (ds : List Nat) : List Nat :=
  List.replicate (w - ds.length) 0 ++ ds

/-- Lowercase hexadecimal digit character, as Rust `{:x}` uses. -/
def hexDigitChar (n : Nat) : Char :=
  if n < 10 then Char.ofNat (48 + n) else Char.ofNat (97 + n - 10)

/-- Decimal/binary digit character. -/
def decDigitChar (n : Nat) : Char := Char.ofNat (48 + n)

/-- Rust `format!("{:02x}", v)`: lowercase hex, zero-padded to width 2. -/
def fmtHex2 (n : Nat) : String :=
  String.mk ((padZeros 2 (natDigits 16 n)).map hexDigitChar)

/-- Rust `format!("{:03}", v)`: decimal, zero-padded to width 3. -/
def fmtDec3 (n : Nat) : String :=
  String.mk ((padZeros 3 (natDigits 10 n)).map decDigitChar)

/-- Rust `format!("{:08b}", v)`: binary, zero-padded to width 8. -/
def fmtBin8 (n : Nat) : String :=
  String.mk ((padZeros 8 (natDigits 2 n)).map decDigitChar)

/-! ## Byte classification (the ASCII label column) -/

/-- Rust `u8::is_ascii`: the byte is at most 127. -/
def isAsciiByte (b : Nat) : Bool := b ≤ 127

/-- Rust `u8::is_ascii_graphic`: printable non-space ASCII, `33..=126`. -/
def isAsciiGraphicByte (b : Nat) : Bool := 33 ≤ b && b ≤ 126

/-- The shared `match` table both macros use for non-graphic bytes
(src/src/lib.rs lines 804-840 and 953-989): C0 control abbreviations
(two-letter ones padded with a trailing space), `SPC`, `DEL`, default `UNK`.
The two source tables are textually identical. -/
def c0Match (b : Nat) : String :=
  match b with
  | 0 => "NUL" | 1 => "SOH" | 2 => "STX" | 3 => "ETX" | 4 => "EOT" | 5 => "ENQ"
  | 6 => "ACK" | 7 => "BEL" | 8 => "BS " | 9 => "HT " | 10 => "LF " | 11 => "VT "
  | 12 => "FF " | 13 => "CR " | 14 => "SO " | 15 => "SI " | 16 => "DLE" | 17 => "DC1"
  | 18 => "DC2" | 19 => "DC3" | 20 => "DC4" | 21 => "NAK" | 22 => "SYN" | 23 => "ETB"
  | 24 => "CAN" | 25 => "EM " | 26 => "SUB" | 27 => "ESC" | 28 => "FS " | 29 => "GS "
  | 30 => "RS " | 31 => "US " | 32 => "SPC" | 127 => "DEL" | _ => "UNK"

/-- ASCII label of the direct pipeline (`_show_memory_content`,
src/src/lib.rs lines 947-992): start from `"..."`; if the byte is ASCII,
replace it by the literal character when graphic, otherwise by the match
table. Bytes 128..255 therefore keep `"..."`. -/
def ascii_display_direct (value : Nat) : String :=
  if isAsciiByte value then
    if isAsciiGraphicByte value then String.singleton (Char.ofNat value)
    else c0Match value
  else "..."

/-- ASCII label of the isolation pipeline (`safe_view_mem!`,
src/src/lib.rs lines 801-841): a graphic byte renders as
`format!("{}  ", byte as char)` (the character plus two spaces), any other
byte goes through the match table, whose default arm gives `"UNK"` for
bytes 128..255. -/
def ascii_display_safe (byte : Nat) : String :=
  if isAsciiGraphicByte byte then String.singleton (Char.ofNat byte) ++ "  "
  else c0Match byte

/-! ## Byte records -/

/-- One row of the byte table: the address, the raw byte value, and the
four rendered columns. -/
structure ByteRecord where
  addr : Nat
  value : Nat
  hex : String
  dec : String
  bin : String
  ascii : String
deriving DecidableEq

/-- Row produced by the direct pipeline for byte `value` at `addr`
(src/src/lib.rs lines 945 and 994). -/
def mkDirectRecord (addr value : Nat) : ByteRecord :=
  ⟨addr, value, fmtHex2 value, fmtDec3 value, fmtBin8 value, ascii_display_direct value⟩

/-- Row produced by the isolation pipeline for byte `value` at `addr`
(src/src/lib.rs lines 797-842). -/
def mkSafeRecord (addr value : Nat) : ByteRecord :=
  ⟨addr, value, fmtHex2 value, fmtDec3 value, fmtBin8 value, ascii_display_safe value⟩

/-! ## The direct byte walker `_show_memory_content` -/

/-- The `while ptr < end` loop of `_show_memory_content`
(src/src/lib.rs lines 942-997): one record per address from `ptr` while
below `e`, advancing by one byte each iteration.  The first `Nat` is fuel
bounding the iteration count; the caller passes `len`, which is exact
because the loop runs once per byte of the span. -/
def showMemLoop (mem : Nat → Nat) : Nat → Nat → Nat → List ByteRecord
  | 0, _, _ => []
  | fuel + 1, ptr, e =>
    if ptr < e then mkDirectRecord ptr (mem ptr) :: showMemLoop mem fuel (ptr + 1) e
    else []

/-- `_show_memory_content(src_ptr, len)` (src/src/lib.rs lines 931-1000):
records for the span of `len` bytes starting at `srcPtr`, read from `mem`.
`end = src_ptr.add(len)`. -/
def show_memory_content (mem : Nat → Nat) (srcPtr len : Nat) : List ByteRecord :=
  showMemLoop mem len srcPtr (srcPtr + len)

/-- The bytes of the memory span `[p, p + n)` as read from `mem` — the
semantic byte pattern the direct pipeline is specified to display. -/
def readBytes (mem : Nat → Nat) (p n : Nat) : List Nat :=
  (List.range n).map fun i => mem (p + i)

theorem showMemLoop_eq (mem : Nat → Nat) :
    ∀ n ptr, showMemLoop mem n ptr (ptr + n) =
      (List.range n).map fun i => mkDirectRecord (ptr + i) (mem (ptr + i)) := by
  intro n
  induction n with
  | zero => intro ptr; simp [showMemLoop]
  | succ k ih =>
    intro ptr
    have hlt : ptr < ptr + (k + 1) := by omega
    have harg : ptr + 1 + k = ptr + (k + 1) := by omega
    have hstep := ih (ptr + 1)
    rw [harg] at hstep
    simp only [showMemLoop, if_pos hlt, hstep, List.range_succ_eq_map, List.map_cons,
      List.map_map, Nat.add_zero]
    congr 1
    apply List.map_congr_left
    intro i _
    have h1 : ptr + 1 + i = ptr + Nat.succ i := by omega
    simp [Function.comp, h1]

theorem show_memory_content_eq (mem : Nat → Nat) (p n : Nat) :
    show_memory_content mem p n =
      (List.range n).map fun i => mkDirectRecord (p + i) (mem (p + i)) :=
  showMemLoop_eq mem n p

/-! ## Printed output, line by line -/

/-- One printed line of a pipeline's report. -/
inductive Line where
  | metaName : String → Line
  | metaType : String → Line
  | metaAddr : Nat → Line
  | metaSize : Nat → Line
  | containerPtrLine : Nat → Line
  | containerLenLine : Nat → Line
  | headerLine : String → Line
  | dividerLine : String → Line
  | record : ByteRecord → Line
  | blank : Line
deriving DecidableEq

/-- Header text of the direct pipeline (src/src/lib.rs line 940). -/
def directHeaderText : String := "     Address      | Hex | Dec |    Bin   | ASCII"

/-- Divider text of the direct pipeline (src/src/lib.rs line 941). -/
def directDividerText : String := "-----------------Memory Content-----------------"

/-- Header text of the isolation pipeline (src/src/lib.rs line 793). -/
def safeHeaderText : String := "     Address     | Hex | Dec |    Bin   | ASCII"

/-- Divider text of the isolation pipeline (src/src/lib.rs line 794). -/
def safeDividerText : String := "---------------Container Content---------------"

/-- Lines printed by `_show_memory_content` itself: header, divider, one
line per byte record, then a blank line (src/src/lib.rs lines 940-999). -/
def show_memory_content_lines (mem : Nat → Nat) (srcPtr len : Nat) : List Line :=
  [Line.headerLine directHeaderText, Line.dividerLine directDividerText]
    ++ (show_memory_content mem srcPtr len).map Line.record
    ++ [Line.blank]

/-- The `view_mem!` macro (src/src/lib.rs lines 884-897): print the name,
the type (with its first character removed by `_print_type_of`, which
strips the leading `&`), the address and the size, then call
`_show_memory_content` over the variable's own `size` bytes. -/
def view_mem (name ty : String) (addr size : Nat) (mem : Nat → Nat) : List Line :=
  [Line.metaName name, Line.metaType (ty.drop 1), Line.metaAddr addr, Line.metaSize size]
    ++ show_memory_content_lines mem addr size

/-- Records of the (possibly stripped) container: the source iterates
`container.iter().enumerate()` and shows each byte at its own address
inside the container, i.e. the container base pointer plus the index
(src/src/lib.rs lines 796-843). -/
def containerRecords (cptr : Nat) (bytes : List Nat) : List ByteRecord :=
  bytes.enum.map fun p => mkSafeRecord (cptr + p.1) p.2

/-- The `safe_view_mem!` macro (src/src/lib.rs lines 768-847).

Inputs: the stringified name and the type name, the address and
`size = size_of_val(&$var)` of the passed value, the result of
`serialize_into` (`none` when serialization fails, `some ser` the byte
buffer it produced), and the base address `cptr` of the final container.

Returns the printed lines paired with a panic flag.  The metadata lines
are printed first; then `serialize_into(...).unwrap()` runs: on failure
the call panics — flag `true`, output ends there.  On success, if the
buffer has at least 8 bytes and its length differs from `size`, the first
8 bytes are assumed to be a serializer header and dropped; then the
container metadata, the header, one line per container byte, and a blank
line are printed. -/
def safe_view_mem (name ty : String) (addr size : Nat)
    (serialized : Option (List Nat)) (cptr : Nat) : List Line × Bool :=
  let meta := [Line.metaName name, Line.metaType ty, Line.metaAddr addr, Line.metaSize size]
  match serialized with
  | none => (meta, true)
  | some ser =>
    let container := if 8 ≤ ser.length ∧ ser.length ≠ size then ser.drop 8 else ser
    (meta
      ++ [Line.containerPtrLine cptr, Line.containerLenLine container.length,
          Line.headerLine safeHeaderText, Line.dividerLine safeDividerText]
      ++ (containerRecords cptr container).map Line.record
      ++ [Line.blank], false)

/-! ## Extracting the byte-record rows back out of an output -/

/-- Project a line to its byte record, if it is a table row. -/
def lineRecord : Line → Option ByteRecord
  | Line.record r => some r
  | _ => none

/-- The byte-record rows of an output, in print order. -/
def recordsOf (out : List Line) : List ByteRecord := out.filterMap lineRecord

/-- The raw byte values of the rows of an output, in print order. -/
def recordValues (out : List Line) : List Nat := (recordsOf out).map fun r => r.value

theorem recordsOf_append (a b : List Line) :
    recordsOf (a ++ b) = recordsOf a ++ recordsOf b := by
  simp [recordsOf, List.filterMap_append]

theorem recordsOf_map_record (rs : List ByteRecord) :
    recordsOf (rs.map Line.record) = rs := by
  induction rs with
  | nil => simp [recordsOf]
  | cons r t ih => simp [recordsOf, lineRecord] at ih ⊢; exact ih

theorem recordsOf_safe_view_mem (name ty : String) (addr size : Nat)
    (ser : List Nat) (cptr : Nat) :
    recordsOf (safe_view_mem name ty addr size (some ser) cptr).1 =
      containerRecords cptr
        (if 8 ≤ ser.length ∧ ser.length ≠ size then ser.drop 8 else ser) := by
  simp only [safe_view_mem]
  rw [recordsOf_append, recordsOf_append, recordsOf_append, recordsOf_map_record]
  simp [recordsOf, lineRecord]

theorem containerRecords_values (cptr : Nat) (bytes : List Nat) :
    (containerRecords cptr bytes).map (fun r => r.value) = bytes := by
  simp only [containerRecords, List.map_map]
  have h : ((fun r : ByteRecord => r.value) ∘ fun p : Nat × Nat => mkSafeRecord (cptr + p.1) p.2)
      = Prod.snd := by
    funext p; rfl
  rw [h, List.enum_map_snd]

/-! ## Claim-side reference definitions

These definitions follow the specification's words, to be compared with
the ones translated from the source. -/

/-- The 33 standard C0 control abbreviations for bytes 0..31, in order, as
the specification lists them (spec section 4.1):
NUL,SOH,STX,ETX,EOT,ENQ,ACK,BEL,BS,HT,LF,VT,FF,CR,SO,SI,DLE,DC1,DC2,DC3,
DC4,NAK,SYN,ETB,CAN,EM,SUB,ESC,FS,GS,RS,US. -/
def c0AbbrevTable : List String :=
  ["NUL", "SOH", "STX", "ETX", "EOT", "ENQ", "ACK", "BEL",
   "BS", "HT", "LF", "VT", "FF", "CR", "SO", "SI",
   "DLE", "DC1", "DC2", "DC3", "DC4", "NAK", "SYN", "ETB",
   "CAN", "EM", "SUB", "ESC", "FS", "GS", "RS", "US"]

/-- Right-pad a label with spaces to width 3 — the fixed-width padding the
specification prescribes for column alignment ("Each label is padded to
fixed width for column alignment", spec section 4.1). -/
def padTo3 (s : String) : String :=
  s ++ String.mk (List.replicate (3 - s.length) ' ')

/-- The byte-to-label mapping for bytes 0..127 exactly as the
specification states it (spec section 4.1): 0..31 the C0 abbreviation
(carrying the fixed-width padding), 32 `SPC`, 33..126 the literal
printable character, 127 `DEL`. -/
def claimLabel (b : Nat) : String :=
  if b < 32 then padTo3 (c0AbbrevTable.getD b "")
  else if b = 32 then "SPC"
  else if b ≤ 126 then String.singleton (Char.ofNat b)
  else "DEL"

/-- Modelled from the spec: the serializer and target-word facts the
isolation pipeline depends on are outside this repository (the `bincode`
crate and `size_of_val`).  Per spec sections 4.2 and 8, a fixed-size
scalar of byte width `w` (`w` one of 1, 2, 4, 8, 16) serializes to exactly
`w` bytes ("a fixed-size scalar whose serialized length equals its
in-memory size"), and the value passed to `safe_view_mem!` is a thin
reference whose own in-memory size — the `size` the macro computes via
`size_of_val(&$var)` — is 8 on the 64-bit target of all documented
outputs. -/
def scalarSerialized (w size : Nat) (ser : List Nat) : Prop :=
  (w = 1 ∨ w = 2 ∨ w = 4 ∨ w = 8 ∨ w = 16) ∧ ser.length = w ∧ size = 8

instance (w size : Nat) (ser : List Nat) : Decidable (scalarSerialized w size ser) := by
  unfold scalarSerialized; infer_instance

/-! ## Parsing the hex column back into bytes -/

/-- Numeric value of a hexadecimal digit character, if it is one. -/
def hexVal (c : Char) : Option Nat :=
  if 48 ≤ c.toNat ∧ c.toNat ≤ 57 then some (c.toNat - 48)
  else if 97 ≤ c.toNat ∧ c.toNat ≤ 102 then some (c.toNat - 87)
  else if 65 ≤ c.toNat ∧ c.toNat ≤ 70 then some (c.toNat - 55)
  else none

/-- Parse a character sequence as consecutive two-digit hexadecimal bytes. -/
def parseHexPairs : List Char → Option (List Nat)
  | [] => some []
  | c1 :: c2 :: rest =>
    match hexVal c1, hexVal c2, parseHexPairs rest with
    | some hi, some lo, some tl => some ((16 * hi + lo) :: tl)
    | _, _, _ => none
  | _ => none

/-- Concatenation of a list of strings, as a character list. -/
def strConcatData : List String → List Char
  | [] => []
  | s :: rest => s.data ++ strConcatData rest

/-- The hex column of a list of rows, concatenated in order, as the
character sequence it spells. -/
def hexColumnChars (rs : List ByteRecord) : List Char :=
  strConcatData (rs.map fun r => r.hex)

theorem fmtHex2_data : ∀ b : Fin 256,
    (fmtHex2 b.val).data = [hexDigitChar (b.val / 16), hexDigitChar (b.val % 16)] := by
  decide

theorem hexVal_hexDigitChar : ∀ n : Fin 16, hexVal (hexDigitChar n.val) = some n.val := by
  decide

theorem parseHexPairs_fmtHex2 (bytes : List Nat) (hb : ∀ b ∈ bytes, b < 256) :
    parseHexPairs (strConcatData (bytes.map fmtHex2)) = some bytes := by
  induction bytes with
  | nil => rfl
  | cons b t ih =>
    have hblt : b < 256 := hb b (by simp)
    have ht : ∀ x ∈ t, x < 256 := fun x hx => hb x (by simp [hx])
    have hdata := fmtHex2_data ⟨b, hblt⟩
    simp only [List.map_cons, strConcatData, hdata, List.cons_append, List.nil_append]
    have hhi := hexVal_hexDigitChar ⟨b / 16, by omega⟩
    have hlo := hexVal_hexDigitChar ⟨b % 16, by omega⟩
    simp only [parseHexPairs, hhi, hlo, ih ht]
    have : 16 * (b / 16) + b % 16 = b := by omega
    rw [this]

/-! ## Label helper lemmas -/

theorem direct_label_high : ∀ b : Fin 128, ascii_display_direct (128 + b.val) = "..." := by
  decide

theorem safe_label_high : ∀ b : Fin 128, ascii_display_safe (128 + b.val) = "UNK" := by
  decide

theorem direct_label_low_ne : ∀ b : Fin 128, ascii_display_direct b.val ≠ "..." := by
  decide

theorem safe_label_low_ne : ∀ b : Fin 128, ascii_display_safe b.val ≠ "UNK" := by
  decide

theorem containerRecords_length (cptr : Nat) (bytes : List Nat) :
    (containerRecords cptr bytes).length = bytes.length := by
  simp [containerRecords]

theorem containerRecords_hex (cptr : Nat) (bytes : List Nat) :
    (containerRecords cptr bytes).map (fun r => r.hex) = bytes.map fmtHex2 := by
  simp only [containerRecords, List.map_map]
  have h : ((fun r : ByteRecord => r.hex) ∘ fun p : Nat × Nat => mkSafeRecord (cptr + p.1) p.2)
      = (fmtHex2 ∘ Prod.snd) := by
    funext p; rfl
  rw [h, ← List.map_map, List.enum_map_snd]

/-! ## The claims -/

/-- Claim C1: in both pipelines the byte-to-label mapping is the one the
specification fixes.  For bytes 0..127 the source labels agree with the
spec's table (`claimLabel`), the isolation pipeline carrying the
fixed-width padding on every label (`padTo3`), the direct pipeline on the
control abbreviations only; for bytes 128..255 the label is an unknown
marker distinct from the label of every byte 0..127, in each pipeline. -/
theorem C1 :
    (∀ b : Fin 128, ascii_display_direct b.val = claimLabel b.val ∧
       ascii_display_safe b.val = padTo3 (claimLabel b.val)) ∧
    (∀ bh bl : Fin 128,
       ascii_display_direct (128 + bh.val) ≠ ascii_display_direct bl.val ∧
       ascii_display_safe (128 + bh.val) ≠ ascii_display_safe bl.val) := by
  constructor
  · decide
  · intro bh bl
    constructor
    · rw [direct_label_high bh]
      exact fun h => direct_label_low_ne bl h.symm
    · rw [safe_label_high bh]
      exact fun h => safe_label_low_ne bl h.symm

/-- Claim C2: the direct byte walker `_show_memory_content(p, n)` produces
exactly `n` byte records, and the record at index `i` is the one for
address `p + i` holding the byte read there — addresses advance by exactly
one byte per record. -/
theorem C2 : ∀ (mem : Nat → Nat) (p n : Nat),
    (show_memory_content mem p n).length = n ∧
    show_memory_content mem p n =
      (List.range n).map fun i => mkDirectRecord (p + i) (mem (p + i)) := by
  intro mem p n
  refine ⟨?_, show_memory_content_eq mem p n⟩
  rw [show_memory_content_eq]
  simp

/-- Claim C3: in the isolation pipeline, the displayed byte values are the
serialized buffer with its first 8 bytes dropped exactly when the buffer
is at least 8 bytes long and its length differs from the computed size of
the passed value, and the untouched buffer otherwise. -/
theorem C3 : ∀ (name ty : String) (addr size : Nat) (ser : List Nat) (cptr : Nat),
    recordValues (safe_view_mem name ty addr size (some ser) cptr).1 =
      if 8 ≤ ser.length ∧ ser.length ≠ size then ser.drop 8 else ser := by
  intro name ty addr size ser cptr
  simp only [recordValues, recordsOf_safe_view_mem, containerRecords_values]

/-- Claim C10: for every byte 128..255 the two pipelines use different
unknown markers: the direct pipeline renders `...` and the isolation
pipeline renders `UNK`, and the two markers differ. -/
theorem C10 : ∀ b : Fin 128,
    ascii_display_direct (128 + b.val) = "..." ∧
    ascii_display_safe (128 + b.val) = "UNK" ∧
    ascii_display_direct (128 + b.val) ≠ ascii_display_safe (128 + b.val) := by
  intro b
  refine ⟨direct_label_high b, safe_label_high b, ?_⟩
  rw [direct_label_high b, safe_label_high b]
  decide

/-- Claim C4 fails on the code: the crate's own documented run
(src/src/lib.rs lines 528-537) of `safe_view_mem!(&my_u16)` reports
`Size : 8 bytes` (the size of the reference) yet prints 2 byte records
(the serialized `u16`).  This run, with the serializer output `[69, 0]`
documented there, shows a `Size` line of 8 next to 2 rows. -/
theorem C4_counterexample :
    Line.metaSize 8 ∈ (safe_view_mem "&my_u16" "&u16" 0 8 (some [69, 0]) 0).1 ∧
    (recordsOf (safe_view_mem "&my_u16" "&u16" 0 8 (some [69, 0]) 0).1).length = 2 ∧
    (2 : Nat) ≠ 8 := by
  decide

/-- Claim C4, amended: the direct pipeline prints exactly `Size` byte
records; the isolation pipeline prints exactly `Container Len` byte
records — the length of the (possibly header-stripped) serialized buffer,
which is reported on its own metadata line and need not equal the `Size`
line. -/
theorem C4_amended :
    (∀ (name ty : String) (addr size : Nat) (mem : Nat → Nat),
       (recordsOf (view_mem name ty addr size mem)).length = size ∧
       Line.metaSize size ∈ view_mem name ty addr size mem) ∧
    (∀ (name ty : String) (addr size : Nat) (ser : List Nat) (cptr : Nat),
       (recordsOf (safe_view_mem name ty addr size (some ser) cptr).1).length =
         (if 8 ≤ ser.length ∧ ser.length ≠ size then ser.drop 8 else ser).length ∧
       Line.containerLenLine
           ((if 8 ≤ ser.length ∧ ser.length ≠ size then ser.drop 8 else ser).length)
         ∈ (safe_view_mem name ty addr size (some ser) cptr).1 ∧
       Line.metaSize size ∈ (safe_view_mem name ty addr size (some ser) cptr).1) := by
  constructor
  · intro name ty addr size mem
    constructor
    · simp only [view_mem, show_memory_content_lines, recordsOf_append, recordsOf_map_record]
      rw [show_memory_content_eq]
      simp [recordsOf, lineRecord]
    · simp [view_mem, show_memory_content_lines]
  · intro name ty addr size ser cptr
    refine ⟨?_, ?_, ?_⟩
    · rw [recordsOf_safe_view_mem, containerRecords_length]
    · simp [safe_view_mem]
    · simp [safe_view_mem]

/-- A 16-byte fixed-size scalar (`u128`) holding 69, as the isolation
pipeline sees it: per the spec's serialization model its serialized
encoding is its 16 in-memory bytes, little-endian. -/
def u128ser : List Nat := 69 :: List.replicate 15 0

/-- Claim C5 fails on the code: `u128` is a fixed-size scalar, yet for
`safe_view_mem!(&my_u128)` the buffer length 16 is `≥ 8` and differs from
the computed size 8 (the size of the reference), so the strip condition
fires and the first 8 bytes of the value itself are wrongly removed: the
displayed bytes are not the serialized encoding. -/
theorem C5_counterexample :
    scalarSerialized 16 8 u128ser ∧
    recordValues (safe_view_mem "&my_u128" "&u128" 0 8 (some u128ser) 0).1 ≠ u128ser := by
  decide

/-- Claim C5, amended: the header-strip heuristic is exact for every
fixed-size scalar whose serialized width is at most 8 bytes (all of
`u8..u64`, `f32`, `f64`): no byte is removed and the displayed bytes are
precisely the serialized encoding.  For a 16-byte scalar the first 8 bytes
are wrongly removed. -/
theorem C5_amended :
    ∀ (w : Nat) (name ty : String) (addr size : Nat) (ser : List Nat) (cptr : Nat),
    scalarSerialized w size ser → w ≤ 8 →
    recordValues (safe_view_mem name ty addr size (some ser) cptr).1 = ser := by
  intro w name ty addr size ser cptr hsc hw
  obtain ⟨hws, hlen, hsize⟩ := hsc
  simp only [recordValues, recordsOf_safe_view_mem, containerRecords_values]
  rw [if_neg]
  omega

theorem C5_amended_witness :
    scalarSerialized 2 8 [69, 0] ∧ (2 : Nat) ≤ 8 ∧
    recordValues (safe_view_mem "&my_u16" "&u16" 0 8 (some [69, 0]) 0).1 = [69, 0] := by
  exact ⟨by decide, by decide,
    C5_amended 2 "&my_u16" "&u16" 0 8 [69, 0] 0 (by decide) (by decide)⟩

/-- Claim C6 fails on the code: the four value metadata lines are printed
before `serialize_into(...).unwrap()` runs (src/src/lib.rs lines 773-780),
so a serialization failure leaves partial output.  In the model, a failed
run still contains the `Name` and `Size` metadata lines (while the panic
flag records that the failure is signalled). -/
theorem C6_counterexample :
    (safe_view_mem "&my_var" "&u16" 0 8 none 0).2 = true ∧
    Line.metaName "&my_var" ∈ (safe_view_mem "&my_var" "&u16" 0 8 none 0).1 ∧
    Line.metaSize 8 ∈ (safe_view_mem "&my_var" "&u16" 0 8 none 0).1 := by
  decide

/-- Claim C6, amended: when serialization fails the inspection aborts by
panicking — the failure is signalled, not swallowed — with no container
metadata, no table header, and no byte records emitted; however, the four
value metadata lines (Name, Type, Addr, Size) have already been printed
before serialization is attempted, so the output is not empty. -/
theorem C6_amended : ∀ (name ty : String) (addr size cptr : Nat),
    safe_view_mem name ty addr size none cptr =
      ([Line.metaName name, Line.metaType ty, Line.metaAddr addr, Line.metaSize size],
        true) := by
  intro name ty addr size cptr
  rfl

/-- The serialized encoding of `vec![69, 255, 254, 253, 70]` as the
crate's own documented run shows it: an 8-byte little-endian length
header (5) followed by the five elements (src/src/lib.rs lines 644-659
document the post-strip `Container Len: 5` and rows 45 ff fe fd 46). -/
def vecSer : List Nat := [5, 0, 0, 0, 0, 0, 0, 0, 69, 255, 254, 253, 70]

/-- Claim C7 fails on the code for the isolation pipeline: when the header
strip fires, the hex column reconstructs only the post-strip container,
not the value's serialized encoding.  For the documented `Vec<u8>` run the
parsed hex column gives the five element bytes, not the 13-byte serialized
encoding. -/
theorem C7_counterexample :
    parseHexPairs (hexColumnChars
        (recordsOf (safe_view_mem "&my_vec" "&alloc::vec::Vec<u8>" 0 8 (some vecSer) 0).1))
      = some [69, 255, 254, 253, 70] ∧
    parseHexPairs (hexColumnChars
        (recordsOf (safe_view_mem "&my_vec" "&alloc::vec::Vec<u8>" 0 8 (some vecSer) 0).1))
      ≠ some vecSer := by
  decide

/-- Claim C7, amended: concatenating the hex column over all rows in order
and parsing it back as bytes reconstructs, in the direct pipeline, the
exact byte pattern of the inspected memory span, and, in the isolation
pipeline, the displayed container — the serialized encoding after the
optional 8-byte header strip, which equals the full serialized encoding
exactly when no strip occurred. -/
theorem C7_amended :
    (∀ (mem : Nat → Nat) (p n : Nat), (∀ a, mem a < 256) →
       parseHexPairs (hexColumnChars (show_memory_content mem p n)) =
         some (readBytes mem p n)) ∧
    (∀ (name ty : String) (addr size : Nat) (ser : List Nat) (cptr : Nat),
       (∀ b ∈ ser, b < 256) →
       parseHexPairs (hexColumnChars
           (recordsOf (safe_view_mem name ty addr size (some ser) cptr).1)) =
         some (if 8 ≤ ser.length ∧ ser.length ≠ size then ser.drop 8 else ser)) := by
  constructor
  · intro mem p n hmem
    have h1 : (show_memory_content mem p n).map (fun r => r.hex) =
        (readBytes mem p n).map fmtHex2 := by
      rw [show_memory_content_eq]
      simp [readBytes, List.map_map, Function.comp, mkDirectRecord]
    rw [hexColumnChars, h1, parseHexPairs_fmtHex2]
    intro b hb
    simp only [readBytes, List.mem_map] at hb
    obtain ⟨i, -, rfl⟩ := hb
    exact hmem _
  · intro name ty addr size ser cptr hser
    rw [recordsOf_safe_view_mem, hexColumnChars, containerRecords_hex, parseHexPairs_fmtHex2]
    intro b hb
    apply hser
    by_cases hc : 8 ≤ ser.length ∧ ser.length ≠ size
    · rw [if_pos hc] at hb
      exact List.mem_of_mem_drop hb
    · rwa [if_neg hc] at hb

theorem C7_amended_witness :
    parseHexPairs (hexColumnChars (show_memory_content (fun _ => 69) 0 2)) =
      some [69, 69] ∧
    parseHexPairs (hexColumnChars
        (recordsOf (safe_view_mem "&my_u16" "&u16" 0 8 (some [69, 0]) 0).1)) =
      some [69, 0] := by
  constructor
  · have h := C7_amended.1 (fun _ => 69) 0 2 (fun a => by show (69 : Nat) < 256; decide)
    simpa [readBytes] using h
  · have h := C7_amended.2 "&my_u16" "&u16" 0 8 [69, 0] 0 (by decide)
    simpa using h

/-- Claim C8: every row whose byte value is 69 renders hex `45`, decimal
`069`, binary `01000101`, and the literal character `E` as its ASCII
label, in both pipelines — the isolation pipeline carrying the fixed
3-wide padding on the label. -/
theorem C8 :
    (∀ (mem : Nat → Nat) (p n : Nat) (r : ByteRecord),
       r ∈ show_memory_content mem p n → r.value = 69 →
       r.hex = "45" ∧ r.dec = "069" ∧ r.bin = "01000101" ∧ r.ascii = "E") ∧
    (∀ (name ty : String) (addr size : Nat) (ser : List Nat) (cptr : Nat) (r : ByteRecord),
       r ∈ recordsOf (safe_view_mem name ty addr size (some ser) cptr).1 → r.value = 69 →
       r.hex = "45" ∧ r.dec = "069" ∧ r.bin = "01000101" ∧ r.ascii = padTo3 "E") := by
  constructor
  · intro mem p n r hr hv
    rw [show_memory_content_eq] at hr
    obtain ⟨i, -, rfl⟩ := List.mem_map.1 hr
    have hv2 : mem (p + i) = 69 := hv
    simp only [mkDirectRecord, hv2]
    decide
  · intro name ty addr size ser cptr r hr hv
    rw [recordsOf_safe_view_mem] at hr
    obtain ⟨q, -, rfl⟩ := List.mem_map.1 hr
    have hv2 : q.2 = 69 := hv
    simp only [mkSafeRecord, hv2]
    decide

theorem C8_witness :
    (mkDirectRecord 0 69).hex = "45" ∧ (mkDirectRecord 0 69).dec = "069" ∧
    (mkDirectRecord 0 69).bin = "01000101" ∧ (mkDirectRecord 0 69).ascii = "E" ∧
    (mkSafeRecord 0 69).ascii = padTo3 "E" := by
  obtain ⟨ha, hb, hc, hd⟩ :=
    C8.1 (fun _ => 69) 0 1 (mkDirectRecord 0 69) (by decide) (by decide)
  obtain ⟨-, -, -, he⟩ :=
    C8.2 "&v" "&u8" 0 8 [69] 0 (mkSafeRecord 0 69) (by decide) (by decide)
  exact ⟨ha, hb, hc, hd, he⟩

/-- Claim C9 fails on the code: in the direct pipeline a printable byte's
label is the bare one-character string while a control byte's label is
three characters wide, so the ASCII column of the direct pipeline is not
one fixed width — byte 69 renders as `E` (width 1) but byte 0 as `NUL`
(width 3). -/
theorem C9_counterexample :
    (ascii_display_direct 69).length = 1 ∧ (ascii_display_direct 0).length = 3 ∧
    (ascii_display_direct 69).length ≠ (ascii_display_direct 0).length := by
  decide

/-- Claim C9, amended: in the isolation pipeline every ASCII label is
padded to the fixed width 3; in the direct pipeline only the control
abbreviations, `SPC`, `DEL` and the unknown marker are width 3, while a
printable byte's label is the bare character of width 1. -/
theorem C9_amended :
    (∀ b : Fin 256, (ascii_display_safe b.val).length = 3) ∧
    (∀ b : Fin 256, (ascii_display_direct b.val).length =
       if 33 ≤ b.val ∧ b.val ≤ 126 then 1 else 3) := by
  constructor
  · decide
  · decide

end MemViewer
